import Mathlib

/-!
Verification of the rule resolution and content-extraction pipeline of the
cursing-rulez CLI (src/utils/rule-fetcher.js as shipped in ticket T022, and the
URL classifiers of src/commands/add.js).

The JavaScript code is shallowly embedded: strings are Lean `String`s
(JavaScript's UTF-16 `.length`/`charAt` coincide with per-`Char` operations on
the ASCII inputs exercised here), exceptions are `Except String`, the network
is an explicit oracle `Net : String → Except String String` standing for
`fetchContent` (resolve = `.ok body`, reject = `.error message`), and
JavaScript `undefined` for string-valued places is `Option String` with
`none` = undefined.  Each regular-expression heuristic of the scraper is
modelled by an explicit leftmost-match scanner that follows the lazy/greedy
shape of its pattern (documented at each definition).
-/

set_option maxRecDepth 20000
set_option maxHeartbeats 2000000

namespace CursingRulez

instance exceptDecEq {ε α : Type} [DecidableEq ε] [DecidableEq α] : DecidableEq (Except ε α) :=
  fun a b =>
    match a, b with
    | Except.ok x, Except.ok y =>
      if h : x = y then Decidable.isTrue (by rw [h])
      else Decidable.isFalse (by intro he; injection he; contradiction)
    | Except.error x, Except.error y =>
      if h : x = y then Decidable.isTrue (by rw [h])
      else Decidable.isFalse (by intro he; injection he; contradiction)
    | Except.ok _, Except.error _ => Decidable.isFalse (fun he => Except.noConfusion he)
    | Except.error _, Except.ok _ => Decidable.isFalse (fun he => Except.noConfusion he)

/-! ### JavaScript string primitives -/

/-- Per-character lowercasing, modelling `String.prototype.toLowerCase` and the
`i` regex flag (exact on ASCII, which is all the literals involved use). -/
def lowerL (s : List Char) : List Char := s.map Char.toLower

/-- First index at which `pat` occurs in `s` (leftmost match of a literal). -/
def findFrom (pat : List Char) : List Char → Option Nat
  | [] => if pat.isPrefixOf ([] : List Char) then some 0 else none
  | c :: t => if pat.isPrefixOf (c :: t) then some 0 else (findFrom pat t).map (· + 1)

/-- Case-sensitive leftmost occurrence of the literal `pat` in `s`. -/
def findCSin (pat : String) (s : List Char) : Option Nat := findFrom pat.toList s

/-- Case-insensitive leftmost occurrence of the literal `pat` in `s`. -/
def findCIin (pat : String) (s : List Char) : Option Nat :=
  findFrom (lowerL pat.toList) (lowerL s)

/-- `String.prototype.includes` (substring test). -/
def strIncludes (s sub : String) : Bool := (findFrom sub.toList s.toList).isSome

/-- `String.prototype.trim` (whitespace at both ends). -/
def jsTrim (s : String) : String :=
  String.mk (((s.toList.dropWhile Char.isWhitespace).reverse.dropWhile Char.isWhitespace).reverse)

/-- `String.prototype.toLowerCase`. -/
def jsToLower (s : String) : String := String.mk (lowerL s.toList)

/-- `t.charAt(0).toUpperCase() + t.slice(1)` from `createSyntheticRuleContent`. -/
def capitalizeJs (t : String) : String :=
  match t.toList with
  | [] => ""
  | c :: r => String.mk (c.toUpper :: r)

/-- One global literal replacement pass, modelling
`str.replace(new RegExp(literal, "g"), replacement)`: non-overlapping,
left to right.  Fuel is the length of the subject, which bounds the number
of emitted characters/matches. -/
def replaceAllAux (pat rep : List Char) : Nat → List Char → List Char
  | 0, s => s
  | _ + 1, [] => []
  | fuel + 1, c :: t =>
    if pat.isPrefixOf (c :: t) then rep ++ replaceAllAux pat rep fuel ((c :: t).drop pat.length)
    else c :: replaceAllAux pat rep fuel t

def replaceAll (pat rep s : String) : String :=
  String.mk (replaceAllAux pat.toList rep.toList s.toList.length s.toList)

/-- `content.replace(/<[^>]*>/g, "")`: every `<`, together with everything up
to and including the next `>`, is removed; a `<` with no later `>` stays. -/
def stripTagsAux : Nat → List Char → List Char
  | 0, s => s
  | _ + 1, [] => []
  | fuel + 1, c :: t =>
    if c = '<' then
      match findFrom ['>'] t with
      | some j => stripTagsAux fuel (t.drop (j + 1))
      | none => c :: t
    else c :: stripTagsAux fuel t

def stripTags (s : String) : String := String.mk (stripTagsAux s.toList.length s.toList)

/-- `String.prototype.split(sep)` with a non-empty string separator:
non-overlapping leftmost splits, empty parts kept.  Fuel is the subject
length plus one. -/
def splitSepAux (sep : List Char) : Nat → List Char → List Char → List (List Char)
  | 0, acc, s => [acc.reverse ++ s]
  | _ + 1, acc, [] => [acc.reverse]
  | fuel + 1, acc, c :: t =>
    if sep.isPrefixOf (c :: t) then
      acc.reverse :: splitSepAux sep fuel [] ((c :: t).drop sep.length)
    else splitSepAux sep fuel (c :: acc) t

def jsSplit (s sep : String) : List String :=
  (splitSepAux sep.toList (s.toList.length + 1) [] s.toList).map String.mk

/-- The apostrophe character, written via its code point. -/
def apostropheS : String := String.mk [Char.ofNat 39]

/-- The named-entity table of `decodeHtmlEntities`, in source (insertion)
order; the passes are applied sequentially, each over the previous result. -/
def namedEntities : List (String × String) :=
  [("&amp;", "&"), ("&lt;", "<"), ("&gt;", ">"), ("&quot;", "\""),
   ("&#x27;", apostropheS), ("&#39;", apostropheS),
   ("&#x2F;", "/"), ("&#x2f;", "/"), ("&#47;", "/")]

def digitsToNat (ds : List Char) : Nat := ds.foldl (fun a c => 10 * a + (c.toNat - 48)) 0

def isHexDigitJs (c : Char) : Bool :=
  c.isDigit || ('a' ≤ c && c ≤ 'f') || ('A' ≤ c && c ≤ 'F')

def hexVal (c : Char) : Nat :=
  if c.isDigit then c.toNat - 48
  else if 'a' ≤ c && c ≤ 'f' then c.toNat - 87
  else c.toNat - 55

def hexToNat (ds : List Char) : Nat := ds.foldl (fun a c => 16 * a + hexVal c) 0

/-- `String.fromCharCode` reduces its argument modulo 2^16 (ToUint16); a code
unit that is not a Unicode scalar value (a lone surrogate) cannot live in a
Lean `Char` and falls back to NUL — no input in this development produces
one. -/
def jsFromCharCode (n : Nat) : Char := Char.ofNat (n % 65536)

/-- The numeric-decimal pass `decoded.replace(/&#(\d+);/g, ...)`. -/
def decodeDecAux : Nat → List Char → List Char
  | 0, s => s
  | _ + 1, [] => []
  | fuel + 1, c :: t =>
    if c = '&' then
      match t with
      | '#' :: u =>
        let ds := u.takeWhile Char.isDigit
        if ds.isEmpty then c :: decodeDecAux fuel t
        else
          match u.drop ds.length with
          | ';' :: rest => jsFromCharCode (digitsToNat ds) :: decodeDecAux fuel rest
          | _ => c :: decodeDecAux fuel t
      | _ => c :: decodeDecAux fuel t
    else c :: decodeDecAux fuel t

/-- The numeric-hex pass `decoded.replace(/&#x([0-9a-f]+);/gi, ...)`; the `i`
flag makes the `x` and the digits case-insensitive. -/
def decodeHexAux : Nat → List Char → List Char
  | 0, s => s
  | _ + 1, [] => []
  | fuel + 1, c :: t =>
    if c = '&' then
      match t with
      | '#' :: x :: u =>
        if x = 'x' || x = 'X' then
          let ds := u.takeWhile isHexDigitJs
          if ds.isEmpty then c :: decodeHexAux fuel t
          else
            match u.drop ds.length with
            | ';' :: rest => jsFromCharCode (hexToNat ds) :: decodeHexAux fuel rest
            | _ => c :: decodeHexAux fuel t
        else c :: decodeHexAux fuel t
      | _ => c :: decodeHexAux fuel t
    else c :: decodeHexAux fuel t

/-- `decodeHtmlEntities` from rule-fetcher.js: nine sequential global literal
replacements (insertion order of the `entities` object), then the decimal
pass, then the hex pass. -/
def decodeHtmlEntities (html : String) : String :=
  let s1 := namedEntities.foldl (fun acc p => replaceAll p.1 p.2 acc) html
  let s2 := String.mk (decodeDecAux s1.toList.length s1.toList)
  String.mk (decodeHexAux s2.toList.length s2.toList)

/-! ### The WHATWG URL model

`new URL(...)` as used by the classifiers.  Modelled for absolute URLs:
leading/trailing whitespace stripped, scheme lowercased, and for the special
schemes the authority is read after skipping slashes, the host is the part of
the authority after the last `@` and before a port `:`, lowercased (WHATWG
domain normalization), and the pathname defaults to `/`.  Inputs with no
`scheme:` head, or a special scheme with an empty host, fail to parse (the
constructor throws).  Percent-encoding, IDNA, dot-segment normalization,
IPv6 hosts and the `file` scheme are outside the fragment exercised here. -/

structure UrlParts where
  protocol : String
  host : String
  pathname : String
deriving DecidableEq, Repr

def isSchemeChar (c : Char) : Bool :=
  c.isAlpha || c.isDigit || c = '+' || c = '-' || c = '.'

def isSpecialScheme (s : String) : Bool :=
  s = "http" || s = "https" || s = "ws" || s = "wss" || s = "ftp"

/-- Host of an authority component: after the last `@`, before the port. -/
def hostOfAuthority (auth : List Char) : List Char :=
  ((jsSplit (String.mk auth) "@").getLastD "").toList.takeWhile (· ≠ ':')

def parseUrl (s : String) : Option UrlParts :=
  let cs := ((s.toList.dropWhile (fun c => c.toNat ≤ 32)).reverse.dropWhile
      (fun c => c.toNat ≤ 32)).reverse
  match cs with
  | [] => none
  | c0 :: _ =>
    if !c0.isAlpha then none
    else
      let scheme := cs.takeWhile isSchemeChar
      match cs.drop scheme.length with
      | ':' :: rest =>
        let schemeL := String.mk (lowerL scheme)
        if isSpecialScheme schemeL then
          let rest1 := rest.dropWhile (fun c => c = '/' || c = '\\')
          let auth := rest1.takeWhile (fun c => c ≠ '/' && c ≠ '\\' && c ≠ '?' && c ≠ '#')
          if auth.isEmpty then none
          else
            let host := lowerL (hostOfAuthority auth)
            if host.isEmpty then none
            else
              let path := (rest1.drop auth.length).takeWhile (fun c => c ≠ '?' && c ≠ '#')
              let path := path.map (fun c => if c = '\\' then '/' else c)
              some ⟨schemeL ++ ":", String.mk host, if path.isEmpty then "/" else String.mk path⟩
        else
          match rest with
          | '/' :: '/' :: rest2 =>
            let auth := rest2.takeWhile (fun c => c ≠ '/' && c ≠ '?' && c ≠ '#')
            let path := (rest2.drop auth.length).takeWhile (fun c => c ≠ '?' && c ≠ '#')
            some ⟨schemeL ++ ":", String.mk (hostOfAuthority auth), String.mk path⟩
          | _ =>
            some ⟨schemeL ++ ":", "", String.mk (rest.takeWhile (fun c => c ≠ '?' && c ≠ '#'))⟩
      | _ => none

/-- `isValidUrl` from src/commands/add.js: `new URL(str)` in a try/catch,
`url.protocol === "http:" || url.protocol === "https:"`, false on throw. -/
def isValidUrl (str : String) : Bool :=
  match parseUrl str with
  | none => false
  | some u => u.protocol == "http:" || u.protocol == "https:"

/-- `isCursorDirectoryUrl` (add.js and rule-fetcher.js, the spec's
`isSpecialOrigin`): `new URL(url).hostname === "cursor.directory"`, false on
throw.  The comparison is exact on the parsed hostname, which the URL parser
has lowercased. -/
def isCursorDirectoryUrl (url : String) : Bool :=
  match parseUrl url with
  | none => false
  | some u => u.host == "cursor.directory"

/-- `extractRuleNameFromUrl`: split the pathname on `/`, keep truthy
(non-empty) parts, index the last one — `undefined` (here `none`) when the
path has no segments, `""` (here `some ""`) when `new URL` throws. -/
def extractRuleNameFromUrl (url : String) : Option String :=
  match parseUrl url with
  | none => some ""
  | some u => ((jsSplit u.pathname "/").filter (fun p => p ≠ "")).getLast?

/-! ### Remote naming convention, catalog and content templates -/

def GITHUB_RAW_URL : String := "https://raw.githubusercontent.com"
def CURSOR_DIRECTORY_REPO : String := "ivangrynenko/cursorrules"
def CURSOR_DIRECTORY_BRANCH : String := "main"
def RULES_PATH : String := ".cursor/rules"

/-- `getGitHubRawUrl`: pure string templating of the fetch URL for a name. -/
def getGitHubRawUrl (ruleName : String) : String :=
  GITHUB_RAW_URL ++ "/" ++ CURSOR_DIRECTORY_REPO ++ "/" ++ CURSOR_DIRECTORY_BRANCH ++ "/" ++
    RULES_PATH ++ "/" ++ (ruleName ++ ".mdc")

structure CatalogEntry where
  name : String
  displayName : String
  description : String
deriving DecidableEq, Repr

/-- `listAvailableRules`: the static hardcoded catalog (no network). -/
def listAvailableRules : List CatalogEntry :=
  [⟨"default", "Default Cursor Rules", "Basic rules for any project"⟩,
   ⟨"react", "React Best Practices", "Rules for React projects"⟩,
   ⟨"nextjs", "Next.js Framework Rules", "Rules for Next.js projects"⟩,
   ⟨"python", "Python Coding Standards", "Rules for Python projects"⟩,
   ⟨"typescript", "TypeScript Best Practices", "Rules for TypeScript projects"⟩]

/-- `createSyntheticRuleContent(technologies, ruleName)`: capitalized tokens
joined with ", " into a fixed template.  The `ruleName` parameter is accepted
but never read by the source. -/
def createSyntheticRuleContent (technologies : List String) (ruleName : String) : String :=
  let techList := String.intercalate ", " (technologies.map capitalizeJs)
  "# " ++ techList ++ " Cursor Rule\n\nYou are a specialized AI assistant for " ++ techList ++
    " development. When helping with this project, follow these guidelines:\n\n" ++
    "1. Use TypeScript for all code examples and solutions where applicable\n" ++
    "2. Follow " ++ techList ++ " best practices and current standards\n" ++
    "3. Focus on writing clean, maintainable code with appropriate type definitions\n" ++
    "4. Provide helpful explanations that consider the relationships between the technologies\n" ++
    "5. Ensure code examples work well together within the tech stack\n\n" ++
    "# File patterns: **/*.\x7bts,tsx,js,jsx\x7d\n"

/-- `generateSimulatedContent(ruleName)` — the offline-mode template; note the
trailing `ruleName.toLowerCase()` file-pattern footer. -/
def generateSimulatedContent (ruleName : String) : String :=
  "# " ++ ruleName ++ " (Simulated Offline Mode)\n\nWhen working with " ++ ruleName ++
    ", follow these guidelines:\n\n" ++
    "1. This is a simulated rule created in offline mode\n" ++
    "2. The actual rule would contain specific guidance for " ++ ruleName ++ "\n" ++
    "3. To get real rules, please connect to the internet\n\n" ++
    "# File patterns: **/*." ++ jsToLower ruleName ++ "\n"

/-! ### The HTML-extraction heuristics of `scrapeCursorDirectoryPage`

Each JavaScript regex is replaced by a scanner computing the same leftmost
match.  All the patterns have the form literal / lazy-gap / literal, for which
the leftmost lazy match is: first occurrence of the opening literal, then the
first occurrence of each following literal; a position where a later literal
is missing is abandoned exactly when the regex engine would abandon it. -/

/-- `/<code class="text-sm block pr-3">([\s\S]*?)<\/code>/i` — capture group. -/
def markerMatch (html : String) : Option String :=
  let s := html.toList
  let pat : List Char := "<code class=\"text-sm block pr-3\">".toList
  match findCIin "<code class=\"text-sm block pr-3\">" s with
  | none => none
  | some i =>
    let rest := s.drop (i + pat.length)
    match findCIin "</code>" rest with
    | none => none
    | some j => some (String.mk (rest.take j))

/-- `/<div class="rule-content">.*?<pre>(.*?)<\/pre>/s` — capture group. -/
def ruleContentMatch (html : String) : Option String :=
  let s := html.toList
  let pat : List Char := "<div class=\"rule-content\">".toList
  match findCSin "<div class=\"rule-content\">" s with
  | none => none
  | some i =>
    let r1 := s.drop (i + pat.length)
    match findCSin "<pre>" r1 with
    | none => none
    | some j =>
      let r2 := r1.drop (j + 5)
      match findCSin "</pre>" r2 with
      | none => none
      | some k => some (String.mk (r2.take k))

/-- `/<pre.*?>(.*?)<\/pre>/s` — capture group. -/
def preMatch (html : String) : Option String :=
  let s := html.toList
  match findCSin "<pre" s with
  | none => none
  | some i =>
    let r1 := s.drop (i + 4)
    match findCSin ">" r1 with
    | none => none
    | some j =>
      let r2 := r1.drop (j + 1)
      match findCSin "</pre>" r2 with
      | none => none
      | some k => some (String.mk (r2.take k))

/-- ``/```(?:markdown|md)?\s*([\s\S]*?)```/`` — capture group; the alternation
prefers `markdown` over `md` over nothing, and `\s*` is greedy. -/
def markdownMatch (html : String) : Option String :=
  let s := html.toList
  match findCSin "```" s with
  | none => none
  | some i =>
    let r1 := s.drop (i + 3)
    let r2 := if "markdown".toList.isPrefixOf r1 then r1.drop 8
              else if "md".toList.isPrefixOf r1 then r1.drop 2
              else r1
    let r3 := r2.dropWhile Char.isWhitespace
    match findCSin "```" r3 with
    | none => none
    | some k => some (String.mk (r3.take k))

/-- `html.match(/<code[^>]*>([\s\S]*?)<\/code>/gi)` followed by the per-match
capture extraction: the list of inner texts, in order. -/
def allCodeAux : Nat → List Char → List String
  | 0, _ => []
  | fuel + 1, s =>
    match findCIin "<code" s with
    | none => []
    | some i =>
      let r1 := s.drop (i + 5)
      match findCSin ">" r1 with
      | none => []
      | some j =>
        let r2 := r1.drop (j + 1)
        match findCIin "</code>" r2 with
        | none => []
        | some k => String.mk (r2.take k) :: allCodeAux fuel (r2.drop (k + 7))

def allCodeMatches (html : String) : List String := allCodeAux html.toList.length html.toList

/-- The longest-code selection loop: strictly longer wins, first occurrence
wins ties, starting from the empty string. -/
def longestFirst (l : List String) : String :=
  l.foldl (fun acc c => if c.length > acc.length then c else acc) ""

def classKeywords : List String := ["content", "markdown", "rule", "prompt", "code"]

/-- First class keyword (in alternation order) that is a case-insensitive
prefix of `s`, with its length.  The keywords are pairwise prefix-free, so at
most one can match at a position. -/
def matchKeywordCI (kws : List String) (s : List Char) : Option Nat :=
  (kws.find? (fun k => (lowerL k.toList).isPrefixOf (lowerL s))).map String.length

/-- `/<div class="(?:content|markdown|rule|prompt|code).*?">([\s\S]*?)<\/div>/i`
— capture group; a start position whose keyword, `">` or `</div>` is missing
is abandoned and the scan resumes one character further. -/
def classMatchAux : Nat → List Char → Option String
  | 0, _ => none
  | fuel + 1, s =>
    match findCIin "<div class=\"" s with
    | none => none
    | some i =>
      let r1 := s.drop (i + 12)
      let retry := s.drop (i + 1)
      match matchKeywordCI classKeywords r1 with
      | none => classMatchAux fuel retry
      | some k =>
        let r2 := r1.drop k
        match findCSin "\">" r2 with
        | none => classMatchAux fuel retry
        | some j =>
          let r3 := r2.drop (j + 2)
          match findCIin "</div>" r3 with
          | none => classMatchAux fuel retry
          | some m => some (String.mk (r3.take m))

def classMatch (html : String) : Option String :=
  classMatchAux html.toList.length html.toList

/-- `.` without the `s` flag: the lazy gap before `>` may not cross a line
terminator. -/
def noNewline (l : List Char) : Bool :=
  l.all (fun c => c ≠ '\n' && c ≠ '\r' && c.toNat ≠ 8232 && c.toNat ≠ 8233)

/-- `/<body.*?>([\s\S]*?)<\/body>/i` — capture group; `.*?` cannot cross a
newline, so a `<body` whose first `>` lies beyond a newline is abandoned. -/
def bodyMatchAux : Nat → List Char → Option String
  | 0, _ => none
  | fuel + 1, s =>
    match findCIin "<body" s with
    | none => none
    | some i =>
      let r1 := s.drop (i + 5)
      let retry := s.drop (i + 1)
      match findCSin ">" r1 with
      | none => none
      | some j =>
        if noNewline (r1.take j) then
          let r2 := r1.drop (j + 1)
          match findCIin "</body>" r2 with
          | none => bodyMatchAux fuel retry
          | some k => some (String.mk (r2.take k))
        else bodyMatchAux fuel retry

def bodyMatch (html : String) : Option String :=
  bodyMatchAux html.toList.length html.toList

def navKeywords : List String := ["nav", "header", "footer"]

/-- Earliest closing tag `</nav>`, `</header>` or `</footer>` (ci) in `r`,
with the length of the closing tag. -/
def firstNavClose (r : List Char) : Option (Nat × Nat) :=
  (navKeywords.filterMap (fun k =>
      (findCIin ("</" ++ k ++ ">") r).map (fun i => (i, k.length + 3)))).foldl
    (fun acc c =>
      match acc with
      | none => some c
      | some a => if c.1 < a.1 then some c else some a) none

/-- `bodyContent.replace(/<(?:nav|header|footer).*?>[\s\S]*?<\/(?:nav|header|footer)>/gi, "")`. -/
def removeNav1Aux : Nat → List Char → List Char
  | 0, s => s
  | _ + 1, [] => []
  | fuel + 1, c :: t =>
    if c = '<' then
      match navKeywords.find? (fun k => (lowerL k.toList).isPrefixOf (lowerL t)) with
      | none => c :: removeNav1Aux fuel t
      | some kw =>
        let r1 := t.drop kw.length
        match findCSin ">" r1 with
        | none => c :: removeNav1Aux fuel t
        | some j =>
          if noNewline (r1.take j) then
            let r2 := r1.drop (j + 1)
            match firstNavClose r2 with
            | none => c :: removeNav1Aux fuel t
            | some (m, len) => removeNav1Aux fuel (r2.drop (m + len))
          else c :: removeNav1Aux fuel t
    else c :: removeNav1Aux fuel t

def navDivKeywords : List String := ["nav", "header", "footer", "sidebar", "menu"]

/-- `bodyContent.replace(/<div class="(?:nav|header|footer|sidebar|menu).*?>[\s\S]*?<\/div>/gi, "")`. -/
def removeNav2Aux : Nat → List Char → List Char
  | 0, s => s
  | _ + 1, [] => []
  | fuel + 1, c :: t =>
    let s := c :: t
    if (lowerL "<div class=\"".toList).isPrefixOf (lowerL s) then
      match navDivKeywords.find? (fun k => (lowerL k.toList).isPrefixOf (lowerL (s.drop 12))) with
      | none => c :: removeNav2Aux fuel t
      | some kw =>
        let r1 := s.drop (12 + kw.length)
        match findCSin ">" r1 with
        | none => c :: removeNav2Aux fuel t
        | some j =>
          if noNewline (r1.take j) then
            let r2 := r1.drop (j + 1)
            match findCIin "</div>" r2 with
            | none => c :: removeNav2Aux fuel t
            | some m => removeNav2Aux fuel (r2.drop (m + 6))
          else c :: removeNav2Aux fuel t
    else c :: removeNav2Aux fuel t

/-- `bodyContent.match(/<p.*?>([\s\S]*?)<\/p>/gi)`: the list of FULL matched
substrings (a `/g` match without capture extraction), in order. -/
def paraAux : Nat → List Char → List String
  | 0, _ => []
  | fuel + 1, s =>
    match findCIin "<p" s with
    | none => []
    | some i =>
      let r1 := s.drop (i + 2)
      let retry := s.drop (i + 1)
      match findCSin ">" r1 with
      | none => []
      | some j =>
        if noNewline (r1.take j) then
          let r2 := r1.drop (j + 1)
          match findCIin "</p>" r2 with
          | none => []
          | some k =>
            String.mk ((s.drop i).take (2 + j + 1 + k + 4)) :: paraAux fuel (r2.drop (k + 4))
        else paraAux fuel retry

/-- Approach 6 of the scraper (the body-text fallback): body capture, nav /
header / footer removal, paragraph collection, tag stripping, entity
decoding. -/
def bodyFallback (html : String) : String :=
  match bodyMatch html with
  | none => ""
  | some b =>
    if b = "" then ""
    else
      let b1 := removeNav1Aux b.toList.length b.toList
      let b2 := removeNav2Aux b1.length b1
      match paraAux b2.length b2 with
      | [] => ""
      | ps => decodeHtmlEntities (stripTags (String.intercalate "\n\n" ps))

/-! ### The `content` variable of `scrapeCursorDirectoryPage`, stage by stage

`contentStageN html` is the value of the mutable `content` after the code up
to and including approach N has run (given that the priority marker approach
did not return).  Stage 5 is the `if (content) content = decodeHtmlEntities(content)`
block that sits between approach 4 and approach 5 in the source. -/

def preContent (html : String) : String :=
  match preMatch html with
  | some c => if c ≠ "" then jsTrim c else ""
  | none => ""

def contentStage12 (html : String) : String :=
  match ruleContentMatch html with
  | some c => if c ≠ "" then jsTrim c else preContent html
  | none => preContent html

def contentStage3 (html : String) : String :=
  if contentStage12 html = "" then
    match markdownMatch html with
    | some c => if c ≠ "" then jsTrim c else ""
    | none => ""
  else contentStage12 html

def contentStage4 (html : String) : String :=
  if contentStage3 html = "" then
    match allCodeMatches html with
    | [] => ""
    | l => if longestFirst l ≠ "" then stripTags (decodeHtmlEntities (jsTrim (longestFirst l)))
           else ""
  else contentStage3 html

def contentStage5 (html : String) : String :=
  if contentStage4 html ≠ "" then decodeHtmlEntities (contentStage4 html) else contentStage4 html

def contentStage6 (html : String) : String :=
  if contentStage5 html = "" then
    match classMatch html with
    | some c => if c ≠ "" then stripTags (jsTrim c) else ""
    | none => ""
  else contentStage5 html

def contentStage7 (html : String) : String :=
  if contentStage6 html = "" then bodyFallback html else contentStage6 html

/-- The message of the TypeError raised by `undefined.includes(...)`
(modelled without the V8 quoting around the property name). -/
def typeErrorIncludes : String :=
  "TypeError: Cannot read properties of undefined (reading includes)"

/-- The message of the TypeError raised by `undefined.toLowerCase()`. -/
def typeErrorToLowerCase : String :=
  "TypeError: Cannot read properties of undefined (reading toLowerCase)"

/-- `scrapeCursorDirectoryPage` after the page fetch succeeded: everything
from the priority marker check to the final return/throw.  A thrown error is
`.error`; a returned `{content, name}` is `.ok`. -/
def extractContentRest (url html : String) (ruleName : Option String) :
    Except String (String × Option String) :=
  if contentStage7 html ≠ "" then Except.ok (contentStage7 html, ruleName)
  else
    match ruleName with
    | none => Except.error typeErrorIncludes
    | some n =>
      if strIncludes n "-" then
        Except.ok
          (createSyntheticRuleContent
            ((jsSplit n "-").filter (fun t => t ≠ "cursor" && t ≠ "rules")) n, ruleName)
      else Except.error ("Could not extract rule content from " ++ url)

def extractContent (url html : String) : Except String (String × Option String) :=
  let ruleName := extractRuleNameFromUrl url
  match markerMatch html with
  | some c =>
    if c ≠ "" then Except.ok (stripTags (decodeHtmlEntities (jsTrim c)), ruleName)
    else extractContentRest url html ruleName
  | none => extractContentRest url html ruleName

/-! ### `fetchRule` -/

/-- The network oracle standing for `fetchContent`. -/
abbrev Net := String → Except String String

/-- `scrapeCursorDirectoryPage(url)`: fetch the page, then extract. -/
def scrapeCursorDirectoryPage (net : Net) (url : String) :
    Except String (String × Option String) :=
  match net url with
  | Except.error e => Except.error e
  | Except.ok html => extractContent url html

structure FetchOptions where
  offlineMode : Bool
  isUrl : Bool
deriving DecidableEq, Repr

/-- The resolver's result object; `none` in an `Option` field models a JS
object in which that key is absent or `undefined`. -/
structure RuleResult where
  success : Bool
  content : Option String
  name : Option String
  source : Option String
  error : Option String
  suggestions : Option (List String)
deriving DecidableEq, Repr

def isOkE (x : Except String String) : Bool :=
  match x with
  | Except.ok _ => true
  | Except.error _ => false

/-- The offline-mode return of `fetchRule` (used both proactively at the top
of the try block and reactively in the catch block).  When `isUrl` is set and
the URL-derived name is `undefined`, `generateSimulatedContent` throws a
TypeError on `ruleName.toLowerCase()`. -/
def offlineResult (token : String) (opts : FetchOptions) : Except String RuleResult :=
  let nm : Option String := if opts.isUrl then extractRuleNameFromUrl token else some token
  match nm with
  | none => Except.error typeErrorToLowerCase
  | some s =>
    Except.ok ⟨true, some (generateSimulatedContent s), some s, some "offline-mode", none, none⟩

/-- The per-technology fallback loop of the cursor.directory branch: the
first successful name-based fetch wins (name kept as the composite name,
source the constructed URL); exhaustion falls back to synthetic content. -/
def tryTechs (net : Net) (ruleName : String) (allTechs : List String) :
    List String → RuleResult
  | [] =>
    ⟨true, some (createSyntheticRuleContent allTechs ruleName), some ruleName,
      some "synthetic-content", none, none⟩
  | t :: rest =>
    match net (getGitHubRawUrl t) with
    | Except.ok c => ⟨true, some c, some ruleName, some (getGitHubRawUrl t), none, none⟩
    | Except.error _ => tryTechs net ruleName allTechs rest

/-- The cursor.directory branch of `fetchRule`: scrape; on scrape failure,
if the URL-derived name is dashed, run the token loop, else rethrow.  An
`undefined` name throws a TypeError at `ruleName.includes("-")`. -/
def cursorBranch (net : Net) (token : String) : Except String RuleResult :=
  match scrapeCursorDirectoryPage net token with
  | Except.ok (c, nm) => Except.ok ⟨true, some c, nm, some token, none, none⟩
  | Except.error e =>
    match extractRuleNameFromUrl token with
    | none => Except.error typeErrorIncludes
    | some ruleName =>
      if strIncludes ruleName "-" then
        Except.ok (tryTechs net ruleName
          ((jsSplit ruleName "-").filter (fun t => t ≠ "cursor" && t ≠ "rules" && t ≠ "rule"))
          ((jsSplit ruleName "-").filter (fun t => t ≠ "cursor" && t ≠ "rules" && t ≠ "rule")))
      else Except.error e

/-- The body of `fetchRule`'s try block. -/
def tryBody (net : Net) (token : String) (opts : FetchOptions) : Except String RuleResult :=
  if opts.offlineMode then offlineResult token opts
  else if opts.isUrl then
    if isCursorDirectoryUrl token then cursorBranch net token
    else
      match net token with
      | Except.ok c =>
        Except.ok ⟨true, some c, extractRuleNameFromUrl token, some token, none, none⟩
      | Except.error e => Except.error e
  else
    match net (getGitHubRawUrl token) with
    | Except.ok c =>
      Except.ok ⟨true, some c, some token, some (getGitHubRawUrl token), none, none⟩
    | Except.error e => Except.error e

/-- The catch block of `fetchRule`: offline escape hatch, else suggestion
matching over the static catalog.  With an `undefined` URL-derived name the
filter callback throws a TypeError at `ruleName.includes(rule.name)`. -/
def catchHandler (token : String) (opts : FetchOptions) (e : String) :
    Except String RuleResult :=
  if opts.offlineMode then offlineResult token opts
  else
    let nm : Option String := if opts.isUrl then extractRuleNameFromUrl token else some token
    match nm with
    | none => Except.error typeErrorIncludes
    | some ruleName =>
      let sugg := (listAvailableRules.filter
          (fun r => strIncludes r.name ruleName || strIncludes ruleName r.name)).map
        (fun r => r.name)
      Except.ok ⟨false, none, some ruleName, none, some e,
        if sugg.isEmpty then none else some sugg⟩

/-- `fetchRule(ruleNameOrUrl, options)`: the try body guarded by the catch
handler; `.error` is a rejected promise. -/
def fetchRule (net : Net) (token : String) (opts : FetchOptions) :
    Except String RuleResult :=
  match tryBody net token opts with
  | Except.ok r => Except.ok r
  | Except.error e => catchHandler token opts e

/-! ### Concrete inputs and oracles used by the theorems below -/

/-- A page holding the priority-1 marker construct with empty inner text next
to a `<pre>` block with text. -/
def emptyMarkerHtml : String :=
  "<code class=\"text-sm block pr-3\"></code><pre>hello</pre>"

/-- A page holding the marker construct with entity-encoded text next to a
`<pre>` block with different text. -/
def markerAndPreHtml : String :=
  "<code class=\"text-sm block pr-3\">A&amp;B</code><pre>zzz</pre>"

/-- A page whose only extractable region is a class-keyword `<div>` whose text
is an HTML entity. -/
def classOnlyHtml : String := "<div class=\"content main\">&amp;</div>"

/-- Network oracle: the cursor.directory page fetch succeeds with an empty
document; every other fetch (in particular every per-token fetch) fails. -/
def netEmptyPage : Net := fun u =>
  if u = "https://cursor.directory/react-typescript-tooling" then Except.ok ""
  else Except.error "down"

/-- Network oracle: everything fails. -/
def netAllFail : Net := fun _ => Except.error "down"

/-- Network oracle: only the constructed fetch URL for the token `b`
succeeds. -/
def netOnlyB : Net := fun u =>
  if u = getGitHubRawUrl "b" then Except.ok "CONTENT" else Except.error "fail"

/-- Network oracle: a transport failure on every request. -/
def netDown : Net := fun _ => Except.error "network down"

/-- Network oracle: every request resolves with the body "BODY". -/
def netBody : Net := fun _ => Except.ok "BODY"

/-! ### Helper lemmas -/

theorem error_of_isOkE_false (x : Except String String) (h : isOkE x = false) :
    ∃ er, x = Except.error er := by
  cases x with
  | ok v => simp [isOkE] at h
  | error er => exact ⟨er, rfl⟩

/-- The token loop returns the first successful fetch: if the fetches for the
first `k` tokens fail and the fetch for the token at index `k` succeeds, the
loop's result carries that fetch's content and URL. -/
theorem tryTechs_first_ok (net : Net) (ruleName : String) (allTechs : List String) :
    ∀ (l : List String) (k : Nat) (tk c : String),
      l[k]? = some tk →
      (∀ u ∈ l.take k, isOkE (net (getGitHubRawUrl u)) = false) →
      net (getGitHubRawUrl tk) = Except.ok c →
      tryTechs net ruleName allTechs l =
        ⟨true, some c, some ruleName, some (getGitHubRawUrl tk), none, none⟩ := by
  intro l
  induction l with
  | nil => intro k tk c hk _ _; simp at hk
  | cons t rest ih =>
    intro k tk c hk hfail hok
    cases k with
    | zero =>
      simp at hk
      subst hk
      simp [tryTechs, hok]
    | succ k =>
      have h0 : isOkE (net (getGitHubRawUrl t)) = false := by
        apply hfail
        simp [List.take_succ_cons]
      obtain ⟨er, her⟩ := error_of_isOkE_false _ h0
      have step : tryTechs net ruleName allTechs (t :: rest) =
          tryTechs net ruleName allTechs rest := by
        simp [tryTechs, her]
      rw [step]
      refine ih k tk c (by simpa using hk) ?_ hok
      intro u hu
      exact hfail u (by simp [List.take_succ_cons]; right; exact hu)

/-- Whatever the loop does, the result's name is the composite name. -/
theorem tryTechs_keeps_name (net : Net) (ruleName : String) (allTechs : List String) :
    ∀ l, (tryTechs net ruleName allTechs l).name = some ruleName := by
  intro l
  induction l with
  | nil => rfl
  | cons t rest ih =>
    cases hnet : net (getGitHubRawUrl t) with
    | ok c => simp [tryTechs, hnet]
    | error e => simp [tryTechs, hnet]; exact ih

/-- Every returned `{content, name}` of the post-fetch extraction carries the
URL-derived name. -/
theorem extractContentRest_name (url html : String) (rn : Option String)
    (p : String × Option String) (h : extractContentRest url html rn = Except.ok p) :
    p.2 = rn := by
  unfold extractContentRest at h
  split at h
  · injection h with h'
    subst h'
    rfl
  · split at h
    · exact absurd h (by simp)
    · split at h
      · injection h with h'
        subst h'
        rfl
      · exact absurd h (by simp)

theorem extractContent_name (url html : String) (p : String × Option String)
    (h : extractContent url html = Except.ok p) : p.2 = extractRuleNameFromUrl url := by
  simp only [extractContent] at h
  split at h
  · split at h
    · injection h with h'
      subst h'
      rfl
    · exact extractContentRest_name _ _ _ _ h
  · exact extractContentRest_name _ _ _ _ h

theorem scrape_name (net : Net) (url : String) (p : String × Option String)
    (h : scrapeCursorDirectoryPage net url = Except.ok p) :
    p.2 = extractRuleNameFromUrl url := by
  unfold scrapeCursorDirectoryPage at h
  split at h
  · exact absurd h (by simp)
  · exact extractContent_name _ _ _ h

/-- The name the resolver derives is defined whenever the token is not
URL-flagged or the URL yields a name. -/
theorem derivedName_ne_none (token : String) (opts : FetchOptions)
    (h : opts.isUrl = false ∨ extractRuleNameFromUrl token ≠ none) :
    (if opts.isUrl then extractRuleNameFromUrl token else some token) ≠ none := by
  cases h with
  | inl h' => rw [h']; simp
  | inr h' =>
    by_cases hu : opts.isUrl = true
    · rw [if_pos hu]; exact h'
    · rw [if_neg hu]; simp

theorem offlineResult_spec (token : String) (opts : FetchOptions)
    (h : opts.isUrl = false ∨ extractRuleNameFromUrl token ≠ none) :
    ∃ r, offlineResult token opts = Except.ok r ∧ r.name ≠ none := by
  have hnm := derivedName_ne_none token opts h
  cases hv : (if opts.isUrl then extractRuleNameFromUrl token else some token) with
  | none => exact absurd hv hnm
  | some s =>
    refine ⟨⟨true, some (generateSimulatedContent s), some s, some "offline-mode", none, none⟩,
      ?_, by simp⟩
    simp only [offlineResult, hv]

theorem catchHandler_spec (token : String) (opts : FetchOptions) (e : String)
    (h : opts.isUrl = false ∨ extractRuleNameFromUrl token ≠ none) :
    ∃ r, catchHandler token opts e = Except.ok r ∧ r.name ≠ none := by
  by_cases ho : opts.offlineMode = true
  · unfold catchHandler
    rw [if_pos ho]
    exact offlineResult_spec token opts h
  · have hnm := derivedName_ne_none token opts h
    cases hv : (if opts.isUrl then extractRuleNameFromUrl token else some token) with
    | none => exact absurd hv hnm
    | some s =>
      refine ⟨⟨false, none, some s, none, some e,
        if ((listAvailableRules.filter
            (fun r => strIncludes r.name s || strIncludes s r.name)).map
          (fun r => r.name)).isEmpty then none
        else some ((listAvailableRules.filter
            (fun r => strIncludes r.name s || strIncludes s r.name)).map
          (fun r => r.name))⟩, ?_, by simp⟩
      unfold catchHandler
      rw [if_neg ho]
      simp only [hv]

/-- Any success the try body produces carries a defined name, given that one
is derivable from the token. -/
theorem tryBody_ok_name (net : Net) (token : String) (opts : FetchOptions) (r : RuleResult)
    (h : opts.isUrl = false ∨ extractRuleNameFromUrl token ≠ none)
    (hb : tryBody net token opts = Except.ok r) : r.name ≠ none := by
  unfold tryBody at hb
  by_cases ho : opts.offlineMode = true
  · rw [if_pos ho] at hb
    obtain ⟨r', hr', hn⟩ := offlineResult_spec token opts h
    rw [hb] at hr'
    injection hr' with h'
    rw [h']
    exact hn
  · rw [if_neg ho] at hb
    by_cases hu : opts.isUrl = true
    · rw [if_pos hu] at hb
      have hex : extractRuleNameFromUrl token ≠ none := by
        cases h with
        | inl h' => rw [h'] at hu; cases hu
        | inr h' => exact h'
      by_cases hc : isCursorDirectoryUrl token = true
      · rw [if_pos hc] at hb
        unfold cursorBranch at hb
        cases hs : scrapeCursorDirectoryPage net token with
        | ok p =>
          obtain ⟨c, nm⟩ := p
          have hnm : nm = extractRuleNameFromUrl token := scrape_name net token (c, nm) hs
          rw [hs] at hb
          simp only [] at hb
          injection hb with h'
          rw [← h']
          simpa [hnm] using hex
        | error e =>
          rw [hs] at hb
          simp only [] at hb
          cases hv : extractRuleNameFromUrl token with
          | none => exact absurd hv hex
          | some n =>
            rw [hv] at hb
            simp only [] at hb
            by_cases hd : strIncludes n "-" = true
            · rw [if_pos hd] at hb
              injection hb with h'
              rw [← h']
              rw [tryTechs_keeps_name]
              simp
            · rw [if_neg hd] at hb
              cases hb
      · rw [if_neg hc] at hb
        cases hn : net token with
        | ok c =>
          rw [hn] at hb
          simp only [] at hb
          injection hb with h'
          rw [← h']
          exact hex
        | error e =>
          rw [hn] at hb
          cases hb
    · rw [if_neg hu] at hb
      cases hn : net (getGitHubRawUrl token) with
      | ok c =>
        rw [hn] at hb
        simp only [] at hb
        injection hb with h'
        rw [← h']
        simp
      | error e =>
        rw [hn] at hb
        cases hb

/-- On scrape failure with a dashed derived name, `fetchRule` is exactly the
token loop over the filtered dash tokens. -/
theorem cursorFallback_is_tryTechs (net : Net) (url e n : String)
    (hcd : isCursorDirectoryUrl url = true)
    (hscrape : scrapeCursorDirectoryPage net url = Except.error e)
    (hname : extractRuleNameFromUrl url = some n)
    (hdash : strIncludes n "-" = true) :
    fetchRule net url ⟨false, true⟩ =
      Except.ok (tryTechs net n
        ((jsSplit n "-").filter (fun t => t ≠ "cursor" && t ≠ "rules" && t ≠ "rule"))
        ((jsSplit n "-").filter (fun t => t ≠ "cursor" && t ≠ "rules" && t ≠ "rule"))) := by
  have hb : tryBody net url ⟨false, true⟩ =
      Except.ok (tryTechs net n
        ((jsSplit n "-").filter (fun t => t ≠ "cursor" && t ≠ "rules" && t ≠ "rule"))
        ((jsSplit n "-").filter (fun t => t ≠ "cursor" && t ≠ "rules" && t ≠ "rule"))) := by
    show (if isCursorDirectoryUrl url = true then cursorBranch net url
      else match net url with
        | Except.ok c =>
          Except.ok ⟨true, some c, extractRuleNameFromUrl url, some url, none, none⟩
        | Except.error e => Except.error e) = _
    rw [if_pos hcd]
    unfold cursorBranch
    rw [hscrape]
    simp only [hname, hdash, if_true]
  unfold fetchRule
  rw [hb]

/-! ### Claim C1 -/

/-- Claim C1, counterexample: a document that contains the priority-1 marker
construct (with empty inner text) and a `<pre>` block holding different text
("hello").  The claim says the scraper returns the marker's decoded,
detagged text (here `""`); the code checks the captured group for
truthiness, skips the empty marker, and returns the `<pre>` text instead. -/
theorem scrape_marker_priority_cex :
    markerMatch emptyMarkerHtml = some "" ∧
    preMatch emptyMarkerHtml = some "hello" ∧
    extractContent "https://cursor.directory/x" emptyMarkerHtml =
      Except.ok ("hello", some "x") ∧
    ("hello" : String) ≠ "" := by
  refine ⟨by decide, by decide, by decide, by decide⟩

/-- Claim C1, amended: whenever the priority-1 marker construct matches with
NON-EMPTY captured text, `scrapeCursorDirectoryPage` returns that capture
trimmed, entity-decoded and tag-stripped — bypassing every later heuristic —
and in particular does not return the text of a `<pre>` block whose
(similarly processed) text differs. -/
theorem scrape_marker_priority (html url c : String)
    (hm : markerMatch html = some c) (hc : c ≠ "") :
    extractContent url html =
      Except.ok (stripTags (decodeHtmlEntities (jsTrim c)), extractRuleNameFromUrl url) ∧
    ∀ p, preMatch html = some p →
      stripTags (decodeHtmlEntities (jsTrim c)) ≠ decodeHtmlEntities (jsTrim p) →
      extractContent url html ≠
        Except.ok (decodeHtmlEntities (jsTrim p), extractRuleNameFromUrl url) := by
  have h1 : extractContent url html =
      Except.ok (stripTags (decodeHtmlEntities (jsTrim c)), extractRuleNameFromUrl url) := by
    simp only [extractContent, hm]
    rw [if_pos hc]
  refine ⟨h1, ?_⟩
  intro p hp hne heq
  have h3 := h1.symm.trans heq
  simp only [Except.ok.injEq, Prod.mk.injEq] at h3
  exact hne h3.1

/-- Claim C1, witness: a marker capture `A&amp;B` next to `<pre>zzz</pre>`
yields the decoded marker text `A&B`, not `zzz`. -/
theorem scrape_marker_priority_witness :
    extractContent "https://cursor.directory/x" markerAndPreHtml =
      Except.ok ("A&B", some "x") ∧
    extractContent "https://cursor.directory/x" markerAndPreHtml ≠
      Except.ok ("zzz", some "x") := by
  have h := scrape_marker_priority markerAndPreHtml "https://cursor.directory/x" "A&amp;B"
    (by decide) (by decide)
  constructor
  · rw [h.1]
    decide
  · have h2 := h.2 "zzz" (by decide) (by decide)
    have e1 : decodeHtmlEntities (jsTrim "zzz") = "zzz" := by decide
    have e2 : extractRuleNameFromUrl "https://cursor.directory/x" = some "x" := by decide
    rw [e1, e2] at h2
    exact h2

/-! ### Claim C2 -/

/-- Claim C2: in the cursor.directory branch, when the scrape throws and the
URL-derived name is dashed, the filtered dash tokens are tried one at a time
in list order; if the first `k` token fetches fail and the fetch at index `k`
succeeds, `fetchRule` resolves with that fetch's content, the ORIGINAL
composite name, and the constructed fetch URL for that single token as
source. -/
theorem fetchRule_fallback_first_token_success (net : Net) (url e n tk c : String)
    (ts : List String) (k : Nat)
    (hcd : isCursorDirectoryUrl url = true)
    (hscrape : scrapeCursorDirectoryPage net url = Except.error e)
    (hname : extractRuleNameFromUrl url = some n)
    (hdash : strIncludes n "-" = true)
    (hts : (jsSplit n "-").filter (fun t => t ≠ "cursor" && t ≠ "rules" && t ≠ "rule") = ts)
    (hk : ts[k]? = some tk)
    (hfail : ∀ u ∈ ts.take k, isOkE (net (getGitHubRawUrl u)) = false)
    (hok : net (getGitHubRawUrl tk) = Except.ok c) :
    fetchRule net url ⟨false, true⟩ =
      Except.ok ⟨true, some c, some n, some (getGitHubRawUrl tk), none, none⟩ := by
  have hb := cursorFallback_is_tryTechs net url e n hcd hscrape hname hdash
  rw [hts] at hb
  rw [hb, tryTechs_first_ok net n ts ts k tk c hk hfail hok]

/-- Claim C2, witness: scraping `https://cursor.directory/a-b` fails, the
fetch for token `a` fails and the fetch for token `b` succeeds, so the result
is `b`'s content under the composite name `a-b` with `b`'s fetch URL. -/
theorem fetchRule_fallback_first_token_success_witness :
    fetchRule netOnlyB "https://cursor.directory/a-b" ⟨false, true⟩ =
      Except.ok ⟨true, some "CONTENT", some "a-b", some (getGitHubRawUrl "b"), none, none⟩ :=
  fetchRule_fallback_first_token_success netOnlyB "https://cursor.directory/a-b" "fail"
    "a-b" "b" "CONTENT" ["a", "b"] 1
    (by decide) (by decide) (by decide) (by decide) (by decide) (by decide) (by decide)
    (by decide)

/-! ### Claim C3 -/

/-- Claim C3, counterexample: for the special-origin URL whose derived name is
`react-typescript-tooling`, when the page FETCH SUCCEEDS but the document has
no extractable content, the scraper itself synthesizes content (the name is
dashed), so `fetchRule` succeeds with the ORIGINAL URL as `source` — not
`"synthetic-content"` as the claim requires — and the per-token fetches are
never attempted. -/
theorem fetchRule_emptyPage_source_cex :
    fetchRule netEmptyPage "https://cursor.directory/react-typescript-tooling" ⟨false, true⟩ =
      Except.ok ⟨true,
        some (createSyntheticRuleContent ["react", "typescript", "tooling"]
          "react-typescript-tooling"),
        some "react-typescript-tooling",
        some "https://cursor.directory/react-typescript-tooling", none, none⟩ ∧
    (some "https://cursor.directory/react-typescript-tooling" : Option String) ≠
      some "synthetic-content" := by
  refine ⟨by decide, by decide⟩

/-- Claim C3, amended: when the SCRAPE of the special-origin URL with derived
name `react-typescript-tooling` fails (the page fetch itself fails) and every
per-token fetch fails, `fetchRule` succeeds with `source = "synthetic-content"`
and content containing "React, Typescript, Tooling". -/
theorem fetchRule_synthetic_after_all_fetches_fail (net : Net) (e : String)
    (hscrape : scrapeCursorDirectoryPage net
      "https://cursor.directory/react-typescript-tooling" = Except.error e)
    (h1 : isOkE (net (getGitHubRawUrl "react")) = false)
    (h2 : isOkE (net (getGitHubRawUrl "typescript")) = false)
    (h3 : isOkE (net (getGitHubRawUrl "tooling")) = false) :
    fetchRule net "https://cursor.directory/react-typescript-tooling" ⟨false, true⟩ =
      Except.ok ⟨true,
        some (createSyntheticRuleContent ["react", "typescript", "tooling"]
          "react-typescript-tooling"),
        some "react-typescript-tooling", some "synthetic-content", none, none⟩ ∧
    strIncludes
      (createSyntheticRuleContent ["react", "typescript", "tooling"]
        "react-typescript-tooling")
      "React, Typescript, Tooling" = true := by
  refine ⟨?_, by decide⟩
  have hb := cursorFallback_is_tryTechs net
    "https://cursor.directory/react-typescript-tooling" e "react-typescript-tooling"
    (by decide) hscrape (by decide) (by decide)
  have hts : (jsSplit "react-typescript-tooling" "-").filter
      (fun t => t ≠ "cursor" && t ≠ "rules" && t ≠ "rule") =
      ["react", "typescript", "tooling"] := by decide
  rw [hts] at hb
  obtain ⟨e1, he1⟩ := error_of_isOkE_false _ h1
  obtain ⟨e2, he2⟩ := error_of_isOkE_false _ h2
  obtain ⟨e3, he3⟩ := error_of_isOkE_false _ h3
  rw [hb]
  simp [tryTechs, he1, he2, he3]

/-- Claim C3, witness: with every request failing, the amended statement holds
concretely. -/
theorem fetchRule_synthetic_after_all_fetches_fail_witness :
    fetchRule netAllFail "https://cursor.directory/react-typescript-tooling" ⟨false, true⟩ =
      Except.ok ⟨true,
        some (createSyntheticRuleContent ["react", "typescript", "tooling"]
          "react-typescript-tooling"),
        some "react-typescript-tooling", some "synthetic-content", none, none⟩ ∧
    strIncludes
      (createSyntheticRuleContent ["react", "typescript", "tooling"]
        "react-typescript-tooling")
      "React, Typescript, Tooling" = true :=
  fetchRule_synthetic_after_all_fetches_fail netAllFail "down"
    (by decide) (by decide) (by decide) (by decide)

/-! ### Claim C4 -/

/-- Claim C4, counterexample: for the URL `https://host/`, whose path has no
segments (a case the claim explicitly includes), the derived name is
`undefined`: in offline mode `generateSimulatedContent` throws a TypeError
inside both the try block and the catch block, so `fetchRule` REJECTS — and
this rejection is not a catalog-lookup failure; without offline mode a
successful fetch settles into a result whose `name` field is absent. -/
theorem fetchRule_undefined_name_cex :
    fetchRule netDown "https://host/" ⟨true, true⟩ =
      Except.error typeErrorToLowerCase ∧
    fetchRule netBody "https://host/" ⟨false, true⟩ =
      Except.ok ⟨true, some "BODY", none, some "https://host/", none, none⟩ := by
  refine ⟨by decide, by decide⟩

/-- Claim C4, amended: for every token, options record and network behavior
such that a name is derivable (the token is not URL-flagged, or the
URL-derived name is not `undefined` — unparseable URLs derive `""` and so
qualify), `fetchRule` settles into a result (never rejects) and the result's
`name` field is present.  URL-flagged tokens whose path has no segments are
excluded: there `fetchRule` can reject with a TypeError or settle without a
name. -/
theorem fetchRule_settles_with_name (net : Net) (token : String) (opts : FetchOptions)
    (h : opts.isUrl = false ∨ extractRuleNameFromUrl token ≠ none) :
    ∃ r, fetchRule net token opts = Except.ok r ∧ r.name ≠ none := by
  unfold fetchRule
  cases hb : tryBody net token opts with
  | ok r => exact ⟨r, rfl, tryBody_ok_name net token opts r h hb⟩
  | error e => exact catchHandler_spec token opts e h

/-- Claim C4, witness: a bare name under a failing network settles into a
(failure) result that still carries the name. -/
theorem fetchRule_settles_with_name_witness :
    ∃ r, fetchRule netDown "nextjs" ⟨false, false⟩ = Except.ok r ∧ r.name ≠ none :=
  fetchRule_settles_with_name netDown "nextjs" ⟨false, false⟩ (Or.inl rfl)

/-! ### Claim C5 -/

/-- Claim C5 (evaluating the code at the failing input): heuristics 1-5 all
fail on this document, the class-keyword heuristic (heuristic 6) matches with
capture `&amp;`, and the scraper returns `&amp;` verbatim — the entity
decoding the claim requires (which would yield `&`) is never applied to this
heuristic's text, because the shared decode block sits BEFORE it in the
source. -/
theorem scrape_classKeyword_skips_decoding :
    classMatch classOnlyHtml = some "&amp;" ∧
    extractContent "https://cursor.directory/x" classOnlyHtml =
      Except.ok ("&amp;", some "x") ∧
    decodeHtmlEntities "&amp;" = "&" ∧
    ("&amp;" : String) ≠ "&" := by
  refine ⟨by decide, by decide, by decide, by decide⟩

/-! ### Claim C6 -/

/-- Claim C6, counterexample: `decodeHtmlEntities "&amp;lt;"` is not `"&lt;"`
— the claim's single-pass behavior does not hold. -/
theorem decodeHtmlEntities_single_pass_cex :
    decodeHtmlEntities "&amp;lt;" ≠ "&lt;" := by decide

/-- Claim C6, amended: the decoder applies its replacement passes
sequentially, each over the result of the previous, so the `&lt;` produced by
decoding the outer `&amp;` of `"&amp;lt;"` IS decoded again by the later
`&lt;` pass in the same call: the result is `"<"` (double decoding). -/
theorem decodeHtmlEntities_sequential :
    decodeHtmlEntities "&amp;lt;" = "<" ∧
    decodeHtmlEntities "&amp;" = "&" ∧
    decodeHtmlEntities "&lt;" = "<" := by
  refine ⟨by decide, by decide, by decide⟩

/-! ### Claim C7 -/

/-- Claim C7, counterexample: `new URL` lowercases the host while parsing, so
the special origin written in the wrong case classifies as special — the
claim says it must classify as non-special. -/
theorem isCursorDirectoryUrl_uppercase_cex :
    isCursorDirectoryUrl "https://CURSOR.DIRECTORY/rules" = true := by decide

/-- Claim C7, amended: `isCursorDirectoryUrl` is an exact equality test on the
PARSED hostname: any URL whose parsed host differs from `cursor.directory` —
in particular any `sub.cursor.directory` subdomain — is non-special, but
since parsing lowercases the host, a wrong-case spelling of the origin parses
to `cursor.directory` and IS special. -/
theorem isCursorDirectoryUrl_spec :
    (∀ s u, parseUrl s = some u → u.host ≠ "cursor.directory" →
      isCursorDirectoryUrl s = false) ∧
    isCursorDirectoryUrl "https://sub.cursor.directory/x" = false ∧
    isCursorDirectoryUrl "https://CURSOR.DIRECTORY/x" = true := by
  refine ⟨?_, by decide, by decide⟩
  intro s u hp hh
  unfold isCursorDirectoryUrl
  rw [hp]
  simp [hh]

/-- Claim C7, witness: the subdomain case via the general part of the
theorem. -/
theorem isCursorDirectoryUrl_spec_witness :
    isCursorDirectoryUrl "https://sub.cursor.directory/a" = false :=
  isCursorDirectoryUrl_spec.1 "https://sub.cursor.directory/a"
    ⟨"https:", "sub.cursor.directory", "/a"⟩ (by decide) (by decide)

/-! ### Claim C8 -/

/-- Claim C8, counterexample: for `https://host/` the path has no segments and
the function returns `undefined` (indexing an empty array), not the empty
string the claim asserts. -/
theorem extractRuleNameFromUrl_root_cex :
    extractRuleNameFromUrl "https://host/" ≠ some "" ∧
    extractRuleNameFromUrl "https://host/" = none := by
  refine ⟨by decide, by decide⟩

/-- Claim C8, amended: `extractRuleNameFromUrl` returns the last non-empty
`/`-separated segment of the parsed pathname; it returns `undefined` (not
`""`) when the path has no segments, and `""` exactly when URL parsing
fails. -/
theorem extractRuleNameFromUrl_spec :
    extractRuleNameFromUrl "https://host/a/b/c-d" = some "c-d" ∧
    extractRuleNameFromUrl "https://host/" = none ∧
    (∀ s, parseUrl s = none → extractRuleNameFromUrl s = some "") ∧
    (∀ s u, parseUrl s = some u →
      extractRuleNameFromUrl s =
        ((jsSplit u.pathname "/").filter (fun p => p ≠ "")).getLast?) := by
  refine ⟨by decide, by decide, ?_, ?_⟩
  · intro s hp
    unfold extractRuleNameFromUrl
    rw [hp]
  · intro s u hp
    unfold extractRuleNameFromUrl
    rw [hp]

/-- Claim C8, witness: the parse-failure and last-segment cases via the
general parts of the theorem. -/
theorem extractRuleNameFromUrl_spec_witness :
    extractRuleNameFromUrl "not a url" = some "" ∧
    extractRuleNameFromUrl "https://host/x/y" = some "y" := by
  constructor
  · exact extractRuleNameFromUrl_spec.2.2.1 "not a url" (by decide)
  · rw [extractRuleNameFromUrl_spec.2.2.2 "https://host/x/y" ⟨"https:", "host", "/x/y"⟩
      (by decide)]
    decide

/-! ### Claim C9 -/

/-- Claim C9: the URL classifiers are total Lean functions of an arbitrary
string (the embedding of their try/catch guards), and on every string the URL
parser rejects, `isValidUrl` and `isCursorDirectoryUrl` return `false` and
`extractRuleNameFromUrl` returns the empty string — the catch-branch values
of the source. -/
theorem urlClassifiers_total_on_parse_failure :
    ∀ s, parseUrl s = none →
      isValidUrl s = false ∧ isCursorDirectoryUrl s = false ∧
      extractRuleNameFromUrl s = some "" := by
  intro s hp
  refine ⟨?_, ?_, ?_⟩
  · unfold isValidUrl
    rw [hp]
  · unfold isCursorDirectoryUrl
    rw [hp]
  · unfold extractRuleNameFromUrl
    rw [hp]

/-- Claim C9, witness: a string that is not a URL. -/
theorem urlClassifiers_total_on_parse_failure_witness :
    isValidUrl "::::" = false ∧ isCursorDirectoryUrl "::::" = false ∧
    extractRuleNameFromUrl "::::" = some "" :=
  urlClassifiers_total_on_parse_failure "::::" (by decide)

/-! ### Claim C10 -/

/-- Claim C10: `createSyntheticRuleContent` reads only its technologies list —
the `ruleName` argument has no influence on the output (for any fixed token
list, all values of `ruleName` give byte-identical results), and as a Lean
function it is deterministic on equal inputs by definition. -/
theorem createSyntheticRuleContent_ignores_ruleName :
    ∀ (ts : List String) (n1 n2 : String),
      createSyntheticRuleContent ts n1 = createSyntheticRuleContent ts n2 :=
  fun _ _ _ => rfl

end CursingRulez
